import Mathlib

/-!
Verification of the URL-resolution and usage-reporting module
(`src/util/mapbox.js` of mapbox-gl-js).

Strings of the JavaScript source are embedded as `List Char` (named `Str`
below), so that every operation of the source (regex matching, splitting,
joining, prefix tests) becomes a structurally recursive executable function.
The process-wide `config` object and the `browser` capability object are
threaded explicitly as structures.  JavaScript `throw` is embedded as
`Except MapboxError`.
-/

/-- Character lists stand in for JavaScript strings. -/
abbrev Str := List Char

/-- The `UrlObject` record of the source: protocol, authority, path and the
list of raw `key=value` parameter strings. -/
structure UrlObject where
  protocol : Str
  authority : Str
  path : Str
  params : List Str
deriving DecidableEq, Repr

/-- The fields of the external `config` object read by this module.
`ACCESS_TOKEN = []` plays the role of a null/empty (falsy) token. -/
structure Config where
  API_URL : Str
  REQUIRE_ACCESS_TOKEN : Bool
  ACCESS_TOKEN : Str
deriving Repr

/-- The fields of the external `browser` object read by `normalizeTileURL`. -/
structure Browser where
  devicePixelRatio : ℚ
  supportsWebp : Bool
deriving Repr

/-- The three kinds of exception thrown by the source. -/
inductive MapboxError where
  /-- thrown by `parseUrl`: the string does not match the URL regex -/
  | malformedURL
  /-- thrown by `makeAPIURL`: a token is required but none is available -/
  | missingToken
  /-- thrown by `makeAPIURL`: the access token starts with the letter s -/
  | secretToken
deriving DecidableEq, Repr

deriving instance DecidableEq for Except

/-- JavaScript regex class `\w`: ASCII letters, digits and underscore. -/
def wordChar (c : Char) : Bool := c.isAlphanum || c == '_'

/-- The optional path group `(\/[^?]+)?` of the URL regex `urlRe`:
at the current position, a slash followed by at least one non-question-mark
character, matched greedily; returns the captured group (if it
participated) and the rest of the input. -/
def parsePath (s : Str) : Option Str × Str :=
  match s with
  | c :: r =>
    if c = '/' then
      if r.takeWhile (fun x => x != '?') = [] then (none, s)
      else (some ('/' :: r.takeWhile (fun x => x != '?')), r.dropWhile (fun x => x != '?'))
    else (none, s)
  | [] => (none, [])

/-- The optional literal question mark `\??` of `urlRe`. -/
def skipQuestion (s : Str) : Str :=
  match s with
  | c :: r => if c = '?' then r else c :: r
  | [] => []

/-- The part of the URL regex `urlRe` after the scheme group: the literal
`://`, the authority group `([^/?]*)`, the path group, the optional `?`
and the query group `(.+)?`.  `scheme` is the already-matched `(\w+)`
capture and `rest1` the input following it. -/
def parseAfterScheme (scheme rest1 : Str) : Option UrlObject :=
  match rest1 with
  | ':' :: '/' :: '/' :: rest2 =>
    if scheme = [] then none
    else
      some { protocol := scheme
             authority := rest2.takeWhile (fun c => !(c == '/' || c == '?'))
             path := (parsePath (rest2.dropWhile (fun c => !(c == '/' || c == '?')))).1.getD ['/']
             params :=
               if ((skipQuestion (parsePath (rest2.dropWhile
                     (fun c => !(c == '/' || c == '?')))).2).takeWhile (fun c => c != '\n')) = []
               then []
               else ((skipQuestion (parsePath (rest2.dropWhile
                     (fun c => !(c == '/' || c == '?')))).2).takeWhile
                   (fun c => c != '\n')).splitOn '&' }
  | _ => none

/-- `parseUrl` of the source: match against
`^(\w+):\/\/([^/?]*)(\/[^?]+)?\??(.+)?` and build a `UrlObject`.
The greedy `(\w+)` takes the maximal word-character prefix (shrinking it
can never make the following literal `:` match, so no backtracking
arises); the dot of the final group does not match a newline; the path
defaults to `/` and an absent or empty query yields an empty parameter
list (`parts[4] ? parts[4].split('&') : []`).  A failed match is the
thrown `Unable to parse URL object` error, embedded as `none`. -/
def parseUrl (url : Str) : Option UrlObject :=
  parseAfterScheme (url.takeWhile wordChar) (url.dropWhile wordChar)

/-- `formatUrl` of the source:
`protocol + "://" + authority + path + (params.length ? "?" + params.join("&") : "")`. -/
def formatUrl (obj : UrlObject) : Str :=
  obj.protocol ++ [':', '/', '/'] ++ obj.authority ++ obj.path ++
    (if obj.params = [] then [] else '?' :: (List.intercalate ['&'] obj.params))

/-- `isMapboxURL`: `url.indexOf('mapbox:') === 0`. -/
def isMapboxURL (url : Str) : Bool :=
  "mapbox:".data.isPrefixOf url

/-- The effective token of `makeAPIURL`:
`accessToken || config.ACCESS_TOKEN` (an omitted or empty override falls
back to the configured token). -/
def effectiveToken (cfg : Config) (accessToken : Option Str) : Str :=
  match accessToken with
  | some t => if t = [] then cfg.ACCESS_TOKEN else t
  | none => cfg.ACCESS_TOKEN

/-- `makeAPIURL` of the source: rebase the url object onto the configured
API url, then (when tokens are required) validate and append the access
token parameter. -/
def makeAPIURL (cfg : Config) (urlObject : UrlObject) (accessToken : Option Str) :
    Except MapboxError Str :=
  match parseUrl cfg.API_URL with
  | none => .error .malformedURL
  | some apiUrlObject =>
    let o1 := { urlObject with protocol := apiUrlObject.protocol
                               authority := apiUrlObject.authority }
    let o2 := if apiUrlObject.path ≠ ['/']
              then { o1 with path := apiUrlObject.path ++ o1.path } else o1
    if !cfg.REQUIRE_ACCESS_TOKEN then .ok (formatUrl o2)
    else
      let token := effectiveToken cfg accessToken
      if token = [] then .error .missingToken
      else if token.head? = some 's' then .error .secretToken
      else .ok (formatUrl { o2 with params := o2.params ++ ["access_token=".data ++ token] })

/-- `normalizeStyleURL`: pass through non-mapbox urls, else prepend
`/styles/v1` to the path and delegate to `makeAPIURL`. -/
def normalizeStyleURL (cfg : Config) (url : Str) (accessToken : Option Str) :
    Except MapboxError Str :=
  if !isMapboxURL url then .ok url
  else match parseUrl url with
    | none => .error .malformedURL
    | some urlObject =>
      makeAPIURL cfg { urlObject with path := "/styles/v1".data ++ urlObject.path } accessToken

/-- `normalizeGlyphsURL`: same pattern with the `/fonts/v1` path. -/
def normalizeGlyphsURL (cfg : Config) (url : Str) (accessToken : Option Str) :
    Except MapboxError Str :=
  if !isMapboxURL url then .ok url
  else match parseUrl url with
    | none => .error .malformedURL
    | some urlObject =>
      makeAPIURL cfg { urlObject with path := "/fonts/v1".data ++ urlObject.path } accessToken

/-- `normalizeSourceURL`: path becomes `/v4/<authority>.json` and the
literal `secure` parameter is pushed before delegating. -/
def normalizeSourceURL (cfg : Config) (url : Str) (accessToken : Option Str) :
    Except MapboxError Str :=
  if !isMapboxURL url then .ok url
  else match parseUrl url with
    | none => .error .malformedURL
    | some urlObject =>
      makeAPIURL cfg
        { urlObject with path := "/v4/".data ++ urlObject.authority ++ ".json".data
                         params := urlObject.params ++ ["secure".data] }
        accessToken

/-- `normalizeSpriteURL`: the source parses the url BEFORE testing the
mapbox prefix, so a non-mapbox non-URL input throws; a non-mapbox URL gets
`format + extension` appended to its path and is formatted directly. -/
def normalizeSpriteURL (cfg : Config) (url fmt extension : Str) (accessToken : Option Str) :
    Except MapboxError Str :=
  match parseUrl url with
  | none => .error .malformedURL
  | some urlObject =>
    if !isMapboxURL url then
      .ok (formatUrl { urlObject with path := urlObject.path ++ fmt ++ extension })
    else
      makeAPIURL cfg
        { urlObject with
            path := "/styles/v1".data ++ urlObject.path ++ "/sprite".data ++ fmt ++ extension }
        accessToken

/-- `replaceTempAccessToken`: every parameter starting with
`access_token=tk.` is replaced by `access_token=` followed by the
configured default token (`config.ACCESS_TOKEN || ''`). -/
def replaceTempAccessToken (cfg : Config) : List Str → List Str
  | [] => []
  | p :: rest =>
    (if "access_token=tk.".data.isPrefixOf p
     then "access_token=".data ++ cfg.ACCESS_TOKEN
     else p) :: replaceTempAccessToken cfg rest

/-- One position of the regex `imageExtensionRe` = `(\.(png|jpg)\d*)(?=$)`:
a match starting here must be a dot, `png` or `jpg`, then digits running to
the very end of the string (the lookahead).  Returns the matched text. -/
def matchImageExtAt (s : Str) : Option Str :=
  match s with
  | c :: rest =>
    if c = '.' ∧ ("png".data.isPrefixOf rest ∨ "jpg".data.isPrefixOf rest)
        ∧ (rest.drop 3).all Char.isDigit
    then some (c :: rest) else none
  | [] => none

/-- `path.replace(imageExtensionRe, suffix + extension)` where `extension`
is `.webp` when WebP is supported and the backreference `$1` (the matched
text itself) otherwise.  `replace` rewrites the leftmost match only; with
no match the string is returned unchanged. -/
def replaceImageExt (suffix : Str) (webp : Bool) : Str → Str
  | [] => []
  | c :: rest =>
    match matchImageExtAt (c :: rest) with
    | some m => suffix ++ (if webp then ".webp".data else m)
    | none => c :: replaceImageExt suffix webp rest

/-- `normalizeTileURL`: tile urls pass through unless the source url is a
mapbox url; otherwise the image extension of the path is rewritten with
the density suffix (`@2x` when the device pixel ratio is at least 2 or the
tile size is 512) and WebP extension, temporary tokens are substituted,
and the object is reformatted. -/
def normalizeTileURL (cfg : Config) (b : Browser) (tileURL : Str)
    (sourceURL : Option Str) (tileSize : Option Int) : Except MapboxError Str :=
  match sourceURL with
  | none => .ok tileURL
  | some s =>
    if !isMapboxURL s then .ok tileURL
    else match parseUrl tileURL with
      | none => .error .malformedURL
      | some urlObject =>
        let suffix := if decide (b.devicePixelRatio ≥ 2) || tileSize == some 512
                      then "@2x".data else []
        .ok (formatUrl
          { urlObject with
              path := replaceImageExt suffix b.supportsWebp urlObject.path
              params := replaceTempAccessToken cfg urlObject.params })

/-- The persistence condition of the `xhr.onreadystatechange` callback in
`postTurnstileEvent`, exactly as written in the source:
`localStorageAvailable && this.readyState === 4 && this.status === 200 || this.status === 204`.
JavaScript gives `&&` a higher precedence than `||`. -/
def turnstilePersistCondition (localStorageAvailable : Bool)
    (readyState status : Nat) : Bool :=
  localStorageAvailable && readyState == 4 && status == 200 || status == 204

/-- Modelled from the spec: the persistence condition the specification
states for the completion callback, namely that the record is written iff
the request is finished (readyState DONE = 4) AND the status is 200 or 204
AND storage is available. -/
def specPersistCondition (localStorageAvailable : Bool)
    (readyState status : Nat) : Bool :=
  localStorageAvailable && readyState == 4 && (status == 200 || status == 204)

/-- The send/skip decision of `postTurnstileEvent`, with the platform
day-of-month extractor (`Date#getDate`, local calendar) abstracted as a
parameter.  Returns `true` when the function reaches the point of issuing
the POST request.  Mirrors the source: an unset token returns early; the
gate runs only under `if (lastUpdateTime)` (so a stored timestamp of 0 is
falsy and skips the gate); `daysElapsed = (now - last) / 86400000` and the
event is skipped when the day of month matches and `0 ≤ daysElapsed < 1`. -/
def postTurnstileSends (getDate : Int → Int) (accessToken : Str)
    (lastUpdateTime : Option Int) (now : Int) : Bool :=
  if accessToken = [] then false
  else
    match lastUpdateTime with
    | none => true
    | some t =>
      if t = 0 then true
      else
        if getDate t = getDate now ∧ 0 ≤ now - t ∧ now - t < 86400000
        then false else true

/-- Day of month (1..31) of a count of days since the Unix epoch, by the
standard civil-from-days calendar conversion; models `Date#getDate` for a
runtime whose local time zone is UTC. -/
def civilDayOfMonth (z : Int) : Int :=
  let z2 := z + 719468
  let era := (if 0 ≤ z2 then z2 else z2 - 146096).ediv 146097
  let doe := z2 - era * 146097
  let yoe := (doe - doe.ediv 1460 + doe.ediv 36524 - doe.ediv 146096).ediv 365
  let doy := doe - (365 * yoe + yoe.ediv 4 - yoe.ediv 100)
  let mp := (5 * doy + 2).ediv 153
  doy - (153 * mp + 2).ediv 5 + 1

/-- `Date#getDate` of an epoch-millisecond timestamp, in a UTC runtime. -/
def dayOfMonthUTC (ms : Int) : Int :=
  civilDayOfMonth (ms.ediv 86400000)

/-- The condition the tile claims describe with the words `the path ends
in .png or .jpg optionally followed by digits`: after stripping trailing
digits, the path ends in `.png` or `.jpg`. -/
def endsWithImageExt (path : Str) : Bool :=
  ".png".data.isSuffixOf (path.reverse.dropWhile Char.isDigit).reverse ||
  ".jpg".data.isSuffixOf (path.reverse.dropWhile Char.isDigit).reverse

/-- The pointwise substitution applied to a single query parameter by the
temporary-token replacement loop. -/
def replaceParam (cfg : Config) (p : Str) : Str :=
  if "access_token=tk.".data.isPrefixOf p
  then "access_token=".data ++ cfg.ACCESS_TOKEN else p

/-- Configuration with the standard API base URL, required tokens and no
default token. -/
def cfgStd : Config :=
  { API_URL := "https://api.mapbox.com".data
    REQUIRE_ACCESS_TOKEN := true
    ACCESS_TOKEN := [] }

/-- Configuration like `cfgStd` but with the default token `pk.DEF`. -/
def cfgTok : Config :=
  { API_URL := "https://api.mapbox.com".data
    REQUIRE_ACCESS_TOKEN := true
    ACCESS_TOKEN := "pk.DEF".data }

/-- Browser environment with a standard-density screen and no WebP. -/
def lowDpiNoWebp : Browser := { devicePixelRatio := 1, supportsWebp := false }

/-- The UrlObject parsed from the well-formed input `http://a?x`; its path
is the defaulted `/`. -/
def urlNoPath : UrlObject :=
  { protocol := "http".data, authority := "a".data
    path := "/".data, params := ["x".data] }

/-! ## Helper lemmas on takeWhile, dropWhile and splitOn -/

theorem takeWhile_append_cons {α : Type} {p : α → Bool} {xs : List α} {y : α}
    {ys : List α} (h : ∀ x ∈ xs, p x = true) (hy : p y = false) :
    (xs ++ y :: ys).takeWhile p = xs := by
  induction xs with
  | nil => simp [List.takeWhile_cons, hy]
  | cons a t ih =>
    have ha : p a = true := h a (by simp)
    simp [List.takeWhile_cons, ha, ih (fun x hx => h x (by simp [hx]))]

theorem dropWhile_append_cons {α : Type} {p : α → Bool} {xs : List α} {y : α}
    {ys : List α} (h : ∀ x ∈ xs, p x = true) (hy : p y = false) :
    (xs ++ y :: ys).dropWhile p = y :: ys := by
  induction xs with
  | nil => simp [List.dropWhile_cons, hy]
  | cons a t ih =>
    have ha : p a = true := h a (by simp)
    simp [List.dropWhile_cons, ha, ih (fun x hx => h x (by simp [hx]))]

theorem takeWhile_eq_self_of_all {α : Type} {p : α → Bool} {xs : List α}
    (h : ∀ x ∈ xs, p x = true) : xs.takeWhile p = xs :=
  List.takeWhile_eq_self_iff.mpr h

theorem dropWhile_eq_nil_of_all {α : Type} {p : α → Bool} {xs : List α}
    (h : ∀ x ∈ xs, p x = true) : xs.dropWhile p = [] :=
  List.dropWhile_eq_nil_iff.mpr h

theorem splitOn_ne_nil_char (c : Char) (q : Str) : q.splitOn c ≠ [] := by
  simp only [List.splitOn]
  exact List.splitOnP_ne_nil _ q

/-! ## Soundness of the parser: structural facts about every parse result -/

/-- Structure of the `parsePath` capture: when the path group participates
it is a slash followed by a nonempty run of non-question-mark characters. -/
theorem parsePath_fst (r : Str) :
    (parsePath r).1 = none ∨
    ∃ p, (parsePath r).1 = some ('/' :: p) ∧ p ≠ [] ∧ ∀ c ∈ p, (c != '?') = true := by
  cases r with
  | nil => exact Or.inl rfl
  | cons a t =>
    by_cases ha : a = '/'
    · by_cases ht : t.takeWhile (fun x => x != '?') = []
      · exact Or.inl (by simp [parsePath, ha, ht])
      · refine Or.inr ⟨t.takeWhile (fun x => x != '?'), by simp [parsePath, ha, ht], ht, ?_⟩
        intro c hc
        exact List.mem_takeWhile_imp (p := fun x => x != '?') hc
    · exact Or.inl (by simp [parsePath, ha])

/-- Every successful parse yields a `UrlObject` whose fields carry the
syntactic guarantees of the corresponding regex groups. -/
theorem parseUrl_facts {s : Str} {u : UrlObject} (h : parseUrl s = some u) :
    u.protocol ≠ [] ∧ (∀ c ∈ u.protocol, wordChar c = true) ∧
    (∀ c ∈ u.authority, (!(c == '/' || c == '?')) = true) ∧
    (u.path = ['/'] ∨ ∃ p, u.path = '/' :: p ∧ p ≠ [] ∧ ∀ c ∈ p, (c != '?') = true) ∧
    (u.params = [] ∨
      ∃ q, q ≠ [] ∧ (∀ c ∈ q, (c != '\n') = true) ∧ u.params = q.splitOn '&') := by
  unfold parseUrl parseAfterScheme at h
  split at h
  case h_2 => exact absurd h (by simp)
  case h_1 rest2 heq =>
    split at h
    case isTrue => exact absurd h (by simp)
    case isFalse hscheme =>
      simp only [Option.some.injEq] at h
      subst h
      refine ⟨hscheme, ?_, ?_, ?_, ?_⟩
      · intro c hc
        dsimp only at hc
        exact List.mem_takeWhile_imp (p := wordChar) hc
      · intro c hc
        dsimp only at hc
        exact List.mem_takeWhile_imp (p := fun c => !(c == '/' || c == '?')) hc
      · dsimp only
        rcases parsePath_fst (rest2.dropWhile (fun c => !(c == '/' || c == '?'))) with
          hnone | ⟨p, hsome, hpne, hpq⟩
        · left; rw [hnone]; rfl
        · right; exact ⟨p, by rw [hsome]; rfl, hpne, hpq⟩
      · dsimp only
        by_cases hq :
          ((skipQuestion (parsePath
              (rest2.dropWhile (fun c => !(c == '/' || c == '?')))).2).takeWhile
            (fun c => c != '\n')) = []
        · left; rw [if_pos hq]
        · right
          refine ⟨_, hq, ?_, by rw [if_neg hq]⟩
          intro c hc
          exact List.mem_takeWhile_imp (p := fun c => c != '\n') hc

/-! ## Round trip of the parse/format pair -/

/-- Round trip for parser-produced url objects with an explicit path: when
the parsed path is not the defaulted `/` (the input had a nonempty path
component), formatting the object reproduces a string that the parser
accepts and parses back to the same `UrlObject`. -/
theorem parse_format_roundtrip {s : Str} {u : UrlObject}
    (h : parseUrl s = some u) (hp : u.path ≠ ['/']) :
    parseUrl (formatUrl u) = some u := by
  obtain ⟨hprne, hprw, hauth, hpath, hparams⟩ := parseUrl_facts h
  clear h
  obtain ⟨proto, auth, path, params⟩ := u
  dsimp only at hprne hprw hauth hpath hparams hp ⊢
  have hcolon : wordChar ':' = false := by decide
  have hslash : (fun c => !(c == '/' || c == '?')) '/' = false := by decide
  have hquest : (fun x => x != '?') '?' = false := by decide
  rcases hpath with rfl | ⟨p, rfl, hpne, hpq⟩
  · exact absurd rfl hp
  rcases hparams with rfl | ⟨q, hqne, hqn, rfl⟩
  · -- no query parameters
    have hf : formatUrl ⟨proto, auth, '/' :: p, []⟩ =
        proto ++ ':' :: '/' :: '/' :: (auth ++ '/' :: p) := by
      simp [formatUrl]
    rw [hf]
    unfold parseUrl
    rw [takeWhile_append_cons (p := wordChar) hprw hcolon,
        dropWhile_append_cons (p := wordChar) hprw hcolon]
    simp only [parseAfterScheme]
    rw [if_neg hprne,
        takeWhile_append_cons (p := fun c => !(c == '/' || c == '?')) hauth hslash,
        dropWhile_append_cons (p := fun c => !(c == '/' || c == '?')) hauth hslash]
    simp only [parsePath, if_pos rfl,
        takeWhile_eq_self_of_all (p := fun x => x != '?') hpq,
        dropWhile_eq_nil_of_all (p := fun x => x != '?') hpq,
        if_neg hpne, skipQuestion]
    simp [skipQuestion]
  · -- query parameters obtained by splitting q
    have hjoin : List.intercalate ['&'] (q.splitOn '&') = q :=
      List.intercalate_splitOn q '&'
    have hpsne : q.splitOn '&' ≠ [] := splitOn_ne_nil_char '&' q
    have hf : formatUrl ⟨proto, auth, '/' :: p, q.splitOn '&'⟩ =
        proto ++ ':' :: '/' :: '/' :: (auth ++ '/' :: (p ++ '?' :: q)) := by
      simp [formatUrl, if_neg hpsne, hjoin]
    rw [hf]
    unfold parseUrl
    rw [takeWhile_append_cons (p := wordChar) hprw hcolon,
        dropWhile_append_cons (p := wordChar) hprw hcolon]
    simp only [parseAfterScheme]
    rw [if_neg hprne,
        takeWhile_append_cons (p := fun c => !(c == '/' || c == '?')) hauth hslash,
        dropWhile_append_cons (p := fun c => !(c == '/' || c == '?')) hauth hslash]
    simp only [parsePath, if_pos rfl,
        takeWhile_append_cons (p := fun x => x != '?') hpq hquest,
        dropWhile_append_cons (p := fun x => x != '?') hpq hquest,
        if_neg hpne, skipQuestion]
    simp [skipQuestion, takeWhile_eq_self_of_all (p := fun c => c != '\n') hqn,
        if_neg hqne]

/-! ## Claim theorems -/

/-- Claim C1 (counterexample): resolving `mapbox://styles/foo/bar` with
token override `pk.ABC` against API base `https://api.mapbox.com` does
NOT return `https://api.mapbox.com/styles/v1/styles/foo/bar?access_token=pk.ABC`:
the authority `styles` of the locator is overwritten by the API host, not
kept in the path. -/
theorem normalizeStyleURL_not_spec_string :
    normalizeStyleURL cfgStd "mapbox://styles/foo/bar".data (some "pk.ABC".data) ≠
      Except.ok "https://api.mapbox.com/styles/v1/styles/foo/bar?access_token=pk.ABC".data := by
  decide

/-- Claim C1 (amended): the call returns
`https://api.mapbox.com/styles/v1/foo/bar?access_token=pk.ABC` — the
parsed path `/foo/bar` is prefixed with `/styles/v1` while the locator
authority `styles` is consumed by the parse and replaced by the API host. -/
theorem normalizeStyleURL_example :
    normalizeStyleURL cfgStd "mapbox://styles/foo/bar".data (some "pk.ABC".data) =
      Except.ok "https://api.mapbox.com/styles/v1/foo/bar?access_token=pk.ABC".data := by
  decide

/-- Claim C2 (code bug): with storage unavailable and the request still at
readyState 1, a 204 status persists the record anyway, violating the
specified condition (finished AND (200 or 204) AND storage available):
in the source, `&&` binds tighter than `||`, so the condition reads
`(avail && readyState === 4 && status === 200) || status === 204`. -/
theorem turnstilePersist_precedence_bug :
    turnstilePersistCondition false 1 204 = true ∧
    specPersistCondition false 1 204 = false := by
  decide

/-- Claim C3 (counterexample): a stored lastSuccess of 0 with now = 1000 ms
satisfies the skip condition of the claim (same calendar day of month and
0 ≤ elapsed < 1 day), yet the reporter still proceeds to send: the source
guard `if (lastUpdateTime)` treats the number 0 as falsy and bypasses the
whole gate. -/
theorem postTurnstileSends_zero_timestamp :
    postTurnstileSends dayOfMonthUTC "pk.x".data (some 0) 1000 = true ∧
    dayOfMonthUTC 0 = dayOfMonthUTC 1000 ∧
    (0 : Int) ≤ 1000 - 0 ∧ (1000 : Int) - 0 < 86400000 := by
  decide

/-- Claim C3 (amended): with a configured access token and a prior NONZERO
lastSuccess timestamp, the reporter skips sending precisely when the
day-of-month of the stored timestamp equals the day-of-month of now and
the elapsed time is at least zero and below one day (86400000 ms); in
every other case it proceeds to attempt a send. -/
theorem postTurnstileSends_gate (getDate : Int → Int) (token : Str) (t now : Int)
    (htok : token ≠ []) (ht : t ≠ 0) :
    postTurnstileSends getDate token (some t) now = false ↔
      (getDate t = getDate now ∧ 0 ≤ now - t ∧ now - t < 86400000) := by
  simp only [postTurnstileSends, if_neg htok, if_neg ht]
  by_cases hcond : getDate t = getDate now ∧ 0 ≤ now - t ∧ now - t < 86400000
  · simp [hcond]
  · simp [hcond]

/-- Witness for the gating rule: lastSuccess at the start of 1970-01-02
and now one second later, same day of month, elapsed below one day. -/
theorem postTurnstileSends_gate_witness :
    postTurnstileSends dayOfMonthUTC "pk.x".data (some 86400000) 86401000 = false ↔
      (dayOfMonthUTC 86400000 = dayOfMonthUTC 86401000 ∧
       0 ≤ (86401000 : Int) - 86400000 ∧ (86401000 : Int) - 86400000 < 86400000) :=
  postTurnstileSends_gate dayOfMonthUTC "pk.x".data 86400000 86401000
    (by decide) (by decide)

/-- Claim C4 (counterexample): `http://a?x` matches the URL grammar
`scheme://authority[/path][?query]` and parses to `urlNoPath`, but
formatting `urlNoPath` yields `http://a/?x`, which reparses with the
inserted slash absorbed into the query (parameter `/?x`): parse after
format is not the identity on parser-produced values. -/
theorem parse_format_not_identity :
    parseUrl "http://a?x".data = some urlNoPath ∧
    parseUrl (formatUrl urlNoPath) ≠ some urlNoPath := by
  decide

/-- Witness for the round-trip theorem at the concrete input
`http://a/p?x=1&y=2`, whose parsed path `/p` is not the default. -/
theorem parse_format_roundtrip_witness :
    parseUrl (formatUrl
        ⟨"http".data, "a".data, "/p".data, ["x=1".data, "y=2".data]⟩) =
      some ⟨"http".data, "a".data, "/p".data, ["x=1".data, "y=2".data]⟩ :=
  parse_format_roundtrip (s := "http://a/p?x=1&y=2".data) (by decide) (by decide)

/-- Claim C5: with tokens required, a mapbox locator that parses, an API
base URL that parses and an effective token whose first character is `s`,
all four resource kinds (style, glyphs, source, sprite) fail with the same
secret-token error. -/
theorem secret_token_rejected (cfg : Config) (url fmt ext : Str) (tok : Option Str)
    (hreq : cfg.REQUIRE_ACCESS_TOKEN = true)
    (hmb : isMapboxURL url = true)
    (happ : (parseUrl cfg.API_URL).isSome = true)
    (hup : (parseUrl url).isSome = true)
    (hsec : (effectiveToken cfg tok).head? = some 's') :
    normalizeStyleURL cfg url tok = .error .secretToken ∧
    normalizeGlyphsURL cfg url tok = .error .secretToken ∧
    normalizeSourceURL cfg url tok = .error .secretToken ∧
    normalizeSpriteURL cfg url fmt ext tok = .error .secretToken := by
  obtain ⟨api, hapi⟩ := Option.isSome_iff_exists.mp happ
  obtain ⟨o, ho⟩ := Option.isSome_iff_exists.mp hup
  have htne : effectiveToken cfg tok ≠ [] := by
    intro he
    rw [he] at hsec
    exact absurd hsec (by simp)
  have hmake : ∀ ob : UrlObject, makeAPIURL cfg ob tok = .error .secretToken := by
    intro ob
    simp [makeAPIURL, hapi, hreq, htne, hsec]
  exact ⟨by simp [normalizeStyleURL, hmb, ho, hmake],
         by simp [normalizeGlyphsURL, hmb, ho, hmake],
         by simp [normalizeSourceURL, hmb, ho, hmake],
         by simp [normalizeSpriteURL, hmb, ho, hmake]⟩

/-- Witness for the secret-token rejection: override token `sk.SECRET` on
the standard configuration. -/
theorem secret_token_rejected_witness :
    normalizeStyleURL cfgStd "mapbox://styles/foo/bar".data (some "sk.SECRET".data) =
        .error .secretToken ∧
    normalizeGlyphsURL cfgStd "mapbox://styles/foo/bar".data (some "sk.SECRET".data) =
        .error .secretToken ∧
    normalizeSourceURL cfgStd "mapbox://styles/foo/bar".data (some "sk.SECRET".data) =
        .error .secretToken ∧
    normalizeSpriteURL cfgStd "mapbox://styles/foo/bar".data "@2x".data ".png".data
        (some "sk.SECRET".data) = .error .secretToken :=
  secret_token_rejected cfgStd "mapbox://styles/foo/bar".data "@2x".data ".png".data
    (some "sk.SECRET".data) (by decide) (by decide) (by decide) (by decide) (by decide)

/-- Claim C7: tileSize 512 forces the `@2x` marker even at device pixel
ratio 1, and without WebP support the captured `.png` extension is kept,
so the resolved tile URL path ends in `@2x.png`. -/
theorem tile512_at2x_png :
    normalizeTileURL cfgStd lowDpiNoWebp "mapbox://tiles/1/2/3.png".data
        (some "mapbox://tileset".data) (some 512) =
      Except.ok "mapbox://tiles/1/2/3@2x.png".data ∧
    "@2x.png".data.isSuffixOf "mapbox://tiles/1/2/3@2x.png".data = true := by
  decide

/-- Claim C8: with an absent or non-mapbox source locator the tile url is
returned unchanged, character for character. -/
theorem tileURL_passthrough (cfg : Config) (b : Browser) (tileURL : Str)
    (sourceURL : Option Str) (tileSize : Option Int)
    (h : sourceURL = none ∨ ∀ s, sourceURL = some s → isMapboxURL s = false) :
    normalizeTileURL cfg b tileURL sourceURL tileSize = .ok tileURL := by
  cases sourceURL with
  | none => rfl
  | some s =>
    rcases h with h | hs
    · exact absurd h (by simp)
    · simp [normalizeTileURL, hs s rfl]

/-- Witness for the tile pass-through on a non-mapbox source locator. -/
theorem tileURL_passthrough_witness :
    normalizeTileURL cfgStd lowDpiNoWebp "mapbox://tiles/1/2/3.png".data
      (some "https://example.com/tiles.json".data) (some 512) =
      .ok "mapbox://tiles/1/2/3.png".data :=
  tileURL_passthrough cfgStd lowDpiNoWebp "mapbox://tiles/1/2/3.png".data
    (some "https://example.com/tiles.json".data) (some 512)
    (Or.inr (fun s hs => by cases hs; decide))

/-- Claim C9: a locator that is neither mapbox-scheme nor a parseable URL
passes through style, glyphs and source resolution unchanged, but sprite
resolution parses first and therefore fails with the malformed-URL error
on the same input. -/
theorem malformed_asymmetry (cfg : Config) (url fmt ext : Str) (tok : Option Str)
    (hmb : isMapboxURL url = false) (hparse : parseUrl url = none) :
    normalizeStyleURL cfg url tok = .ok url ∧
    normalizeGlyphsURL cfg url tok = .ok url ∧
    normalizeSourceURL cfg url tok = .ok url ∧
    normalizeSpriteURL cfg url fmt ext tok = .error .malformedURL := by
  exact ⟨by simp [normalizeStyleURL, hmb],
         by simp [normalizeGlyphsURL, hmb],
         by simp [normalizeSourceURL, hmb],
         by simp [normalizeSpriteURL, hparse]⟩

/-- Witness for the malformed-input asymmetry at the input `foo`. -/
theorem malformed_asymmetry_witness :
    normalizeStyleURL cfgStd "foo".data none = .ok "foo".data ∧
    normalizeGlyphsURL cfgStd "foo".data none = .ok "foo".data ∧
    normalizeSourceURL cfgStd "foo".data none = .ok "foo".data ∧
    normalizeSpriteURL cfgStd "foo".data "@2x".data ".png".data none =
      .error .malformedURL :=
  malformed_asymmetry cfgStd "foo".data "@2x".data ".png".data none
    (by decide) (by decide)

/-! ## Image-extension replacement lemmas -/

theorem dropWhile_append_of_ne_nil {α : Type} {p : α → Bool} {xs : List α}
    (h : xs.dropWhile p ≠ []) (ys : List α) :
    (xs ++ ys).dropWhile p = xs.dropWhile p ++ ys := by
  induction xs with
  | nil => simp at h
  | cons a t ih =>
    by_cases ha : p a = true
    · rw [List.cons_append, List.dropWhile_cons_of_pos ha,
          List.dropWhile_cons_of_pos ha]
      rw [List.dropWhile_cons_of_pos ha] at h
      exact ih h
    · have ha2 : p a = false := by simpa using ha
      rw [List.cons_append, List.dropWhile_cons_of_neg (by simp [ha2]),
          List.dropWhile_cons_of_neg (by simp [ha2])]
      rfl

/-- A position where `imageExtensionRe` matches makes the whole string end
in a dot, `png` or `jpg`, and trailing digits. -/
theorem matchImageExtAt_ends {s m : Str} (h : matchImageExtAt s = some m) :
    endsWithImageExt s = true := by
  cases s with
  | nil => simp [matchImageExtAt] at h
  | cons c rest =>
    rw [matchImageExtAt] at h
    split at h
    case isFalse => simp at h
    case isTrue hcond =>
      obtain ⟨rfl, hext, hdig⟩ := hcond
      have hall : ∀ x ∈ rest.drop 3, Char.isDigit x = true := List.all_eq_true.mp hdig
      rcases hext with hpre | hpre
      · obtain ⟨t2, ht2⟩ := List.isPrefixOf_iff_prefix.mp hpre
        subst ht2
        have hallt : ∀ x ∈ t2.reverse, Char.isDigit x = true := by
          intro x hx
          exact hall x (List.mem_reverse.mp hx)
        rw [show ('.' :: ("png".data ++ t2)) = '.' :: 'p' :: 'n' :: 'g' :: t2 from rfl]
        have hrev : ('.' :: 'p' :: 'n' :: 'g' :: t2).reverse =
            t2.reverse ++ 'g' :: 'n' :: 'p' :: '.' :: [] := by simp
        have hdrop : (('.' :: 'p' :: 'n' :: 'g' :: t2).reverse).dropWhile Char.isDigit =
            'g' :: 'n' :: 'p' :: '.' :: [] := by
          rw [hrev]
          exact dropWhile_append_cons hallt (by decide)
        unfold endsWithImageExt
        rw [hdrop]
        decide
      · obtain ⟨t2, ht2⟩ := List.isPrefixOf_iff_prefix.mp hpre
        subst ht2
        have hallt : ∀ x ∈ t2.reverse, Char.isDigit x = true := by
          intro x hx
          exact hall x (List.mem_reverse.mp hx)
        rw [show ('.' :: ("jpg".data ++ t2)) = '.' :: 'j' :: 'p' :: 'g' :: t2 from rfl]
        have hrev : ('.' :: 'j' :: 'p' :: 'g' :: t2).reverse =
            t2.reverse ++ 'g' :: 'p' :: 'j' :: '.' :: [] := by simp
        have hdrop : (('.' :: 'j' :: 'p' :: 'g' :: t2).reverse).dropWhile Char.isDigit =
            'g' :: 'p' :: 'j' :: '.' :: [] := by
          rw [hrev]
          exact dropWhile_append_cons hallt (by decide)
        unfold endsWithImageExt
        rw [hdrop]
        decide

/-- Ending in an image extension is preserved by prepending a character. -/
theorem endsWithImageExt_cons {rest : Str} (h : endsWithImageExt rest = true)
    (c : Char) : endsWithImageExt (c :: rest) = true := by
  by_cases hd : rest.reverse.dropWhile Char.isDigit = []
  · rw [endsWithImageExt, hd] at h
    simp at h
  · have hstep : (c :: rest).reverse.dropWhile Char.isDigit =
        rest.reverse.dropWhile Char.isDigit ++ [c] := by
      rw [List.reverse_cons]
      exact dropWhile_append_of_ne_nil hd [c]
    rw [endsWithImageExt] at h ⊢
    rw [hstep, List.reverse_append]
    rcases Bool.or_eq_true_iff.mp h with h1 | h1
    · apply Bool.or_eq_true_iff.mpr
      left
      have hsfx := List.isSuffixOf_iff_suffix.mp h1
      exact List.isSuffixOf_iff_suffix.mpr (hsfx.trans (List.suffix_cons _ _))
    · apply Bool.or_eq_true_iff.mpr
      right
      have hsfx := List.isSuffixOf_iff_suffix.mp h1
      exact List.isSuffixOf_iff_suffix.mpr (hsfx.trans (List.suffix_cons _ _))

/-- When the path does not end in an image extension, the leftmost-match
replacement finds no match and leaves the path unchanged. -/
theorem replaceImageExt_id (suffix : Str) (w : Bool) :
    ∀ path : Str, endsWithImageExt path = false →
      replaceImageExt suffix w path = path := by
  intro path
  induction path with
  | nil => intro _; rfl
  | cons c rest ih =>
    intro h
    rw [replaceImageExt]
    cases hm : matchImageExtAt (c :: rest) with
    | some m => exact absurd (matchImageExtAt_ends hm) (by simp [h])
    | none =>
      have hrest : endsWithImageExt rest = false := by
        by_contra hr
        have hr2 : endsWithImageExt rest = true := by
          cases he : endsWithImageExt rest with
          | false => exact absurd he hr
          | true => rfl
        exact absurd (endsWithImageExt_cons hr2 c) (by simp [h])
      rw [ih hrest]

/-- Claim C6: on every tile resolution with a mapbox source locator, the
query parameters of the result are the original parameters rewritten
pointwise — every parameter starting with `access_token=tk.` becomes
`access_token=` followed by the configured default token (empty if none),
each one independently of the order and position of the others. -/
theorem temp_token_replaced (cfg : Config) (b : Browser) (tileURL src : Str)
    (tileSize : Option Int) (o : UrlObject)
    (hmb : isMapboxURL src = true) (ho : parseUrl tileURL = some o) :
    normalizeTileURL cfg b tileURL (some src) tileSize =
      .ok (formatUrl
        { o with
            path := replaceImageExt
              (if decide (b.devicePixelRatio ≥ 2) || tileSize == some 512
               then "@2x".data else []) b.supportsWebp o.path
            params := o.params.map (replaceParam cfg) }) := by
  have hmap : ∀ ps : List Str,
      replaceTempAccessToken cfg ps = ps.map (replaceParam cfg) := by
    intro ps
    induction ps with
    | nil => rfl
    | cons a t ih =>
      rw [replaceTempAccessToken, List.map_cons, ih]
      rfl
  simp [normalizeTileURL, hmb, ho, hmap]

/-- Witness for the temporary-token substitution: a tile URL with three
parameters whose middle one is a `tk.` session token. -/
theorem temp_token_replaced_witness :
    normalizeTileURL cfgTok lowDpiNoWebp
        "mapbox://t/7?b=1&access_token=tk.s&c=2".data (some "mapbox://x".data) none =
      .ok (formatUrl
        { protocol := "mapbox".data
          authority := "t".data
          path := replaceImageExt
            (if decide (lowDpiNoWebp.devicePixelRatio ≥ 2) ||
                (none : Option Int) == some 512
             then "@2x".data else []) lowDpiNoWebp.supportsWebp "/7".data
          params := ["b=1".data, "access_token=tk.s".data, "c=2".data].map
            (replaceParam cfgTok) }) :=
  temp_token_replaced cfgTok lowDpiNoWebp
    "mapbox://t/7?b=1&access_token=tk.s&c=2".data "mapbox://x".data none
    ⟨"mapbox".data, "t".data, "/7".data,
      ["b=1".data, "access_token=tk.s".data, "c=2".data]⟩
    (by decide) (by decide)

/-- Claim C10: when the tile path does not end in `.png` or `.jpg` plus
optional digits, the path component survives tile resolution unchanged
while the temporary-token substitution is still applied to the query
parameters. -/
theorem tile_path_no_ext_unchanged (cfg : Config) (b : Browser) (tileURL src : Str)
    (tileSize : Option Int) (o : UrlObject)
    (hmb : isMapboxURL src = true) (ho : parseUrl tileURL = some o)
    (hno : endsWithImageExt o.path = false) :
    normalizeTileURL cfg b tileURL (some src) tileSize =
      .ok (formatUrl { o with params := replaceTempAccessToken cfg o.params }) := by
  have hid : replaceImageExt
      (if decide (b.devicePixelRatio ≥ 2) || tileSize == some 512
       then "@2x".data else []) b.supportsWebp o.path = o.path :=
    replaceImageExt_id _ _ o.path hno
  simp only [normalizeTileURL, hmb, ho]
  simp at hid
  simp [hid]

/-- Witness for the extension-free tile path at `mapbox://t/7.pbf`: forced
512 tile size changes nothing because the path has no image extension. -/
theorem tile_path_no_ext_unchanged_witness :
    normalizeTileURL cfgTok lowDpiNoWebp
        "mapbox://t/7.pbf?access_token=tk.s".data (some "mapbox://x".data) (some 512) =
      .ok (formatUrl
        { protocol := "mapbox".data
          authority := "t".data
          path := "/7.pbf".data
          params := replaceTempAccessToken cfgTok ["access_token=tk.s".data] }) :=
  tile_path_no_ext_unchanged cfgTok lowDpiNoWebp
    "mapbox://t/7.pbf?access_token=tk.s".data "mapbox://x".data (some 512)
    ⟨"mapbox".data, "t".data, "/7.pbf".data, ["access_token=tk.s".data]⟩
    (by decide) (by decide) (by decide)
